import Mathlib

/-!
# Verification of the django-components core against its specification

This file shallowly embeds the component-rendering lifecycle and the
dependency-aggregation pipeline of the repository (files
`component.py` and `dependencies.py`) and proves or refutes the
specification's claims about them.

Strings are modelled as `List Char` (the sources operate on `str`/ASCII
`bytes`; on the characters involved the two coincide).  Fallible code is
modelled with `Except`; process-wide caches are passed as explicit state.
-/

/-- Strings of the embedded program. -/
abbrev Str := List Char

/-- Python `str.strip()` whitespace class (ASCII subset relevant here). -/
def pySpace (c : Char) : Bool :=
  c = ' ' || c = '\t' || c = '\n' || c = '\x0d' || c = '\x0b' || c = '\x0c'

/-- Python `s.strip()`: drop leading and trailing whitespace. -/
def pyStrip (s : Str) : Str :=
  ((s.dropWhile pySpace).reverse.dropWhile pySpace).reverse

/-- `_is_nonempty_str(txt)`: `txt is not None and bool(txt.strip())`
(dependencies.py line 557). -/
def isNonemptyStr (o : Option Str) : Bool :=
  match o with
  | none => false
  | some s => s.any (fun c => ! pySpace c)

/-- `needle` occurs at the start of `l`. -/
def startsWithL (needle l : Str) : Bool :=
  match needle, l with
  | [], _ => true
  | _ :: _, [] => false
  | n :: ns, c :: cs => n = c && startsWithL ns cs

/-- `needle` occurs somewhere in `l` (substring test). -/
def containsSub (l needle : Str) : Bool :=
  match l with
  | [] => startsWithL needle []
  | _ :: cs => startsWithL needle l || containsSub cs needle

/-- Number of (possibly overlapping) occurrences of `needle` in `l`. -/
def countSub (l needle : Str) : Nat :=
  match l with
  | [] => if startsWithL needle [] then 1 else 0
  | _ :: cs => (if startsWithL needle l then 1 else 0) + countSub cs needle

/-- `sep.join xs` (Python `str.join`). -/
def joinSep (sep : Str) : List Str → Str
  | [] => []
  | [x] => x
  | x :: y :: ys => x ++ sep ++ joinSep sep (y :: ys)

/-- Concatenation of a list of strings (`"".join`). -/
def joinAll (xs : List Str) : Str := xs.foldr (· ++ ·) []

/-- Strict lexicographic comparison by code point (Python `<` on `str`). -/
def lexLt : Str → Str → Bool
  | [], [] => false
  | [], _ :: _ => true
  | _ :: _, [] => false
  | a :: as, b :: bs =>
    if a.toNat < b.toNat then true
    else if b.toNat < a.toNat then false
    else lexLt as bs

/-- Insert into a lexicographically sorted list, after equal elements. -/
def insertSorted (x : Str) : List Str → List Str
  | [] => [x]
  | y :: ys => if lexLt x y then x :: y :: ys else y :: insertSorted x ys

/-- Python `sorted` on a list of strings. -/
def sortStrs (l : List Str) : List Str := l.foldr insertSorted []

/-!
## Component classes and the asset cache

`Component` class attributes relevant to dependency handling
(component.py lines 248-260), together with the opaque class hash
(`_hash_comp_cls`, dependencies.py lines 105-109; the md5 digest of the
module path is treated as an opaque injective identifier and carried as
a field).
-/

structure CompCls where
  name : Str
  clsHash : Str
  js : Option Str
  css : Option Str
  mediaJs : List Str
  mediaCss : List Str
deriving DecidableEq

/-- The in-memory media cache (`InMemoryComponentMediaCache`), as an
association list in insertion order. -/
abbrev Cache := List (Str × Str)

def cacheGet (c : Cache) (k : Str) : Option Str :=
  (c.find? (fun e => e.1 == k)).map (·.2)

def cacheHas (c : Cache) (k : Str) : Bool := (cacheGet c k).isSome

def cacheSet (c : Cache) (k v : Str) : Cache :=
  if cacheHas c k then c.map (fun e => if e.1 == k then (k, v) else e)
  else c ++ [(k, v)]

/-- `_gen_cache_key` (dependencies.py lines 112-116). -/
def genCacheKey (compClsHash : Str) (scriptType : Str) : Str :=
  "__components:".toList ++ compClsHash ++ ":".toList ++ scriptType

/-- `_cache_script` (dependencies.py lines 128-147): stores the stripped
script under the class-hash key. -/
def cacheScript (cls : CompCls) (script : Str) (scriptType : Str) (c : Cache) : Cache :=
  cacheSet c (genCacheKey cls.clsHash scriptType) (pyStrip script)

/-- `cache_inlined_js` (dependencies.py lines 150-161): no-op unless the
class declares non-blank `js`; first write wins. -/
def cacheInlinedJs (cls : CompCls) (content : Str) (c : Cache) : Cache :=
  if ! isNonemptyStr cls.js then c
  else if cacheHas c (genCacheKey cls.clsHash "js".toList) then c
  else cacheScript cls content "js".toList c

/-- `cache_inlined_css` (dependencies.py lines 164-175).  NOTE: the guard
in the source tests `comp_cls.js` (line 165), not `comp_cls.css`; the
embedding preserves that behaviour. -/
def cacheInlinedCss (cls : CompCls) (content : Str) (c : Cache) : Cache :=
  if ! isNonemptyStr cls.js then c
  else if cacheHas c (genCacheKey cls.clsHash "css".toList) then c
  else cacheScript cls content "css".toList c

/-- The caching effect of one render of a component
(component.py lines 719-721: `cache_inlined_js(cls, self.js or "")`;
`cache_inlined_css(cls, self.css or "")`). -/
def renderCacheAssets (cls : CompCls) (c : Cache) : Cache :=
  cacheInlinedCss cls (cls.css.getD []) (cacheInlinedJs cls (cls.js.getD []) c)

/-!
## Serving endpoint
-/

structure HttpResp where
  status : Nat
  body : Str
  contentType : Str
deriving DecidableEq

/-- `_CONTENT_TYPES` / `_get_content_types` (dependencies.py lines 786-793). -/
def contentTypeFor (scriptType : Str) : Option Str :=
  if scriptType = "js".toList then some "text/javascript".toList
  else if scriptType = "css".toList then some "text/css".toList
  else none

/-- `cached_script_view` (dependencies.py lines 796-812).  The unknown
script-type `ValueError` is modelled as status 500 (it is unreachable for
`js`/`css`). -/
def cachedScriptView (method : Str) (compClsHash : Str) (scriptType : Str) (c : Cache) : HttpResp :=
  if method ≠ "GET".toList then ⟨405, [], []⟩
  else
    match cacheGet c (genCacheKey compClsHash scriptType) with
    | none => ⟨404, [], []⟩
    | some script =>
      match contentTypeFor scriptType with
      | some ct => ⟨200, script, ct⟩
      | none => ⟨500, [], []⟩

/-- A component class that declares inlined CSS but no JS. -/
def cssOnlyComp : CompCls :=
  ⟨"MyComp".toList, "MyComp_ab01f3".toList, none, some "body\x7bcolor:red\x7d".toList, [], []⟩

/-- A component class declaring both inlined JS and CSS. -/
def jsCssComp : CompCls :=
  ⟨"Both".toList, "Both_c2d3e4".toList, some "x();".toList, some "b\x7bc:d\x7d".toList, [], []⟩

/-- A component class with non-blank inlined JS, used to exercise the
`cache_inlined_js` guard. -/
def jsOnlyComp : CompCls :=
  ⟨"C".toList, "C_1".toList, some "x".toList, none, [], []⟩

/-!
## Render engine state

`RenderInput` and `RenderStackItem` (component.py lines 93-107) and the
per-instance render stack (`self._render_stack`, line 323).  The
`RenderStackItem.input` field is dynamically typed in Python; it is
modelled as an `Option` so that the `if self.input is None` branch of
`inject()` can be stated, but every frame the program pushes carries
`some` input (component.py lines 702-714).
-/

structure RenderInputM where
  contextProvided : List (Str × Str)
  args : List Str
  kwargs : List (Str × Str)
deriving DecidableEq

structure RenderStackItemM where
  inputOpt : Option RenderInputM
  isFilled : Option (List Str)
deriving DecidableEq

/-- Error message raised by the `input` property when the render stack is
empty (component.py lines 340-341). -/
def inputErrMsg (name : Str) : Str :=
  name ++ ": Tried to access Component input while outside of rendering execution".toList

/-- Error message of the `if self.input is None` branch of `inject()`
(component.py lines 463-466). -/
def injectErrMsg (name : Str) : Str :=
  "Method 'inject()' of component '".toList ++ name
    ++ "' was called outside of 'get_context_data()'".toList

/-- The `input` property (component.py lines 334-345): raises when the
stack is empty, otherwise returns the innermost frame's input field. -/
def inputProp (name : Str) (stack : List RenderStackItemM) : Except Str (Option RenderInputM) :=
  match stack.getLast? with
  | none => .error (inputErrMsg name)
  | some item => .ok item.inputOpt

/-- Modelled from the spec: `get_injected_context_var`
(django_components.context, not among these sources) looks up a value
published by an enclosing `provide` scope in the context chain by key and
falls back to the default. -/
def getInjectedContextVar (inp : RenderInputM) (key : Str) (dflt : Option Str) : Option Str :=
  match inp.contextProvided.find? (fun e => e.1 == key) with
  | some e => some e.2
  | none => dflt

/-- `Component.inject` (component.py lines 420-468): evaluates `self.input`
(which may raise), then the `if self.input is None` guard, then the lookup. -/
def injectM (name : Str) (stack : List RenderStackItemM) (key : Str) (dflt : Option Str) :
    Except Str (Option Str) :=
  match inputProp name stack with
  | .error e => .error e
  | .ok none => .error (injectErrMsg name)
  | .ok (some inp) => .ok (getInjectedContextVar inp key dflt)

/-!
## Render lifecycle: stack discipline and error annotation

`_render_impl` (component.py lines 667-777) pushes a frame after input
validation and pops it after the output is produced; the fallible steps in
between are modelled as `Except` parameters so that every exit path of the
function can be examined.
-/

structure RenderSteps where
  validateInputs : Except Str Unit
  getContextData : Except Str Unit
  resolveTemplate : Except Str Unit
  renderTemplate : Except Str Unit
  postprocessHtml : Except Str Str

/-- `_render_impl`'s effect on the instance's render stack, paired with its
outcome.  The frame push is at component.py lines 702-714, the pop at line
774; no `try/finally` protects the pop. -/
def renderImplFrames (stack : List RenderStackItemM) (frame : RenderStackItemM)
    (s : RenderSteps) : List RenderStackItemM × Except Str Str :=
  match s.validateInputs with
  | .error e => (stack, .error e)
  | .ok _ =>
    let pushed := stack ++ [frame]
    match s.getContextData with
    | .error e => (pushed, .error e)
    | .ok _ =>
      match s.resolveTemplate with
      | .error e => (pushed, .error e)
      | .ok _ =>
        match s.renderTemplate with
        | .error e => (pushed, .error e)
        | .ok _ =>
          match s.postprocessHtml with
          | .error e => (pushed, .error e)
          | .ok out => (pushed.dropLast, .ok out)

/-- Python `msg.split("\n", 1)[1]` as used at component.py line 658 (the
call sites guarantee the message contains a newline). -/
def afterFirstNewline (s : Str) : Str :=
  (s.dropWhile (fun c => ! (c == '\n'))).tail

/-- The breadcrumb prefix `"An error occured while rendering components
{path}:\n"` built at component.py lines 661-662. -/
def breadcrumbText (comps : List Str) : Str :=
  "An error occured while rendering components ".toList
    ++ joinSep " > ".toList comps ++ ":\n".toList

/-- A Python exception as seen by `_render`'s handler: the `_components`
attribute (missing attribute ≡ `[]`, lines 649-652) and `args[0]`. -/
structure PyExnM where
  components : List Str
  msg : Str
deriving DecidableEq

/-- One nesting level of `_render`'s exception annotation
(component.py lines 640-665). -/
def annotateRenderError (name : Str) (err : PyExnM) : PyExnM :=
  let origMsg := if err.components.isEmpty then err.msg else afterFirstNewline err.msg
  let comps := name :: err.components
  ⟨comps, breadcrumbText comps ++ origMsg⟩

/-!
## Template resolution

`_get_template` (component.py lines 373-418).  The four configurable
sources are modelled by the values they yield: the `template_name`
attribute, the `get_template_name(context)` result, the `template`
attribute and the `get_template(context)` result.
-/

inductive ResolvedTemplate where
  | fromName (n : Str)
  | fromInline (t : Str)
deriving DecidableEq

def getTemplateM (tnAttr gtnRes tAttr gtRes : Option Str) : Except Str ResolvedTemplate :=
  if tnAttr.isSome && gtnRes.isSome then
    .error "Received non-null value from both 'template_name' and 'get_template_name'".toList
  else
    let templateName := if tnAttr.isSome then tnAttr else gtnRes
    if tAttr.isSome && gtRes.isSome then
      .error "Received non-null value from both 'template' and 'get_template'".toList
    else
      let templateInput := if tAttr.isSome then tAttr else gtRes
      if templateName.isSome && templateInput.isSome then
        .error "Received both 'template_name' and 'template'".toList
      else
        match templateName, templateInput with
        | some n, _ => .ok (.fromName n)
        | none, some t => .ok (.fromInline t)
        | none, none => .error "Either 'template_name' or 'template' must be set".toList

def isOkB {ε α : Type} (e : Except ε α) : Bool :=
  match e with
  | .ok _ => true
  | .error _ => false

instance instDecEqExcept {ε α : Type} [DecidableEq ε] [DecidableEq α] :
    DecidableEq (Except ε α) := fun x y =>
  match x, y with
  | .ok a, .ok b =>
    if h : a = b then .isTrue (by rw [h])
    else .isFalse (by intro hh; cases hh; exact h rfl)
  | .error a, .error b =>
    if h : a = b then .isTrue (by rw [h])
    else .isFalse (by intro hh; cases hh; exact h rfl)
  | .ok _, .error _ => .isFalse (by intro hh; cases hh)
  | .error _, .ok _ => .isFalse (by intro hh; cases hh)

/-!
## Dependency markers: embedding and scanning

`COMPONENT_DEPS_COMMENT` / `_insert_component_comment`
(dependencies.py lines 193-211 and 275-279) and the extraction pass of
`_process_dep_declarations` (lines 427-454).  The two byte regexes are
embedded as executable scanners:

* `COMPONENT_COMMENT_REGEX = <!-- _RENDERED (?P<data>[\w\-,/]+?) -->`
* `SCRIPT_NAME_REGEX = ^(?P<comp_cls_hash>[\w\-\./]+?),(?P<id>[\w]+?)$`

`\w` in a bytes pattern is ASCII `[A-Za-z0-9_]`.
-/

/-- ASCII `\w` of a Python bytes regex. -/
def wordChar (c : Char) : Bool := c.isAlphanum || c = '_'

/-- The character class `[\w\-,/]` of `COMPONENT_COMMENT_REGEX`. -/
def commentDataChar (c : Char) : Bool := wordChar c || c = '-' || c = ',' || c = '/'

/-- The character class `[\w\-\./]` of `SCRIPT_NAME_REGEX`'s hash group. -/
def scriptHashChar (c : Char) : Bool := wordChar c || c = '-' || c = '.' || c = '/'

/-- Hash characters that survive the comment scan: word chars, dash and
slash (no dot, no comma). -/
def hashCharNoDot (c : Char) : Bool := wordChar c || c = '-' || c = '/'

/-- The fixed head of a dependency comment, `"<!-- _RENDERED "`. -/
def markerHead : Str := "<!-- _RENDERED ".toList

/-- The fixed tail of a dependency comment, `" -->"`. -/
def markerTail : Str := " -->".toList

/-- `_insert_component_comment`'s marker for `(class_hash, component_id)`:
`<!-- _RENDERED {hash},{id} -->` prepended to the component's HTML. -/
def mkMarker (h i : Str) : Str := markerHead ++ (h ++ (',' :: (i ++ markerTail)))

/-- One pass of `COMPONENT_COMMENT_REGEX.sub`: collect every `data` group
and delete the matches.  The lazy `[\w\-,/]+?` followed by `" -->"` is
equivalent to the maximal class-character run (the class excludes the
space that starts `" -->"`).  Fuel-based so the kernel can evaluate it;
`fuel ≥ length` always suffices. -/
def scanGo : Nat → Str → List Str × Str
  | _, [] => ([], [])
  | 0, rest => ([], rest)
  | fuel + 1, c :: cs =>
    if startsWithL markerHead (c :: cs) then
      let rest := (c :: cs).drop markerHead.length
      let run := rest.takeWhile commentDataChar
      let after := rest.dropWhile commentDataChar
      if !run.isEmpty && startsWithL markerTail after then
        let next := scanGo fuel (after.drop markerTail.length)
        (run :: next.1, next.2)
      else
        let next := scanGo fuel cs
        (next.1, c :: next.2)
    else
      let next := scanGo fuel cs
      (next.1, c :: next.2)

/-- Marker extraction over a whole document: extracted `data` groups in
order of appearance, and the document with the markers stripped. -/
def scanMarkers (content : Str) : List Str × Str := scanGo content.length content

/-- `SCRIPT_NAME_REGEX.match(part)`: split the `data` group at its (unique
possible) comma into hash and id.  The hash class excludes `,`, so the
lazy match splits at the first comma. -/
def parsePart (data : Str) : Option (Str × Str) :=
  let h := data.takeWhile (fun c => ! (c == ','))
  match data.dropWhile (fun c => ! (c == ',')) with
  | ',' :: i =>
    if !h.isEmpty && h.all scriptHashChar && !i.isEmpty && i.all wordChar then some (h, i)
    else none
  | _ => none

/-- The dedup loop of `_process_dep_declarations` (lines 436-454): parse
each part, raise `RuntimeError("Malformed dependencies data")` on a regex
mismatch, and keep the first appearance of each class hash. -/
def collectGo (seen : List Str) : List Str → Except Str (List Str)
  | [] => .ok []
  | p :: ps =>
    match parsePart p with
    | none => .error "Malformed dependencies data".toList
    | some (h, _) =>
      if h ∈ seen then collectGo seen ps
      else
        match collectGo (h :: seen) ps with
        | .error e => .error e
        | .ok rest => .ok (h :: rest)

def collectHashes (parts : List Str) : Except Str (List Str) := collectGo [] parts

/-- The ordered, deduplicated class-hash list the aggregation pass derives
from a document (dependencies.py lines 427-454). -/
def aggregationHashes (content : Str) : Except Str (List Str) :=
  collectHashes (scanMarkers content).1

/-!
## Aggregation pipeline

`render_dependencies` / `_process_dep_declarations` and their helpers
(dependencies.py lines 269-776).  The external collaborators — Django's
`Media` tag rendering, `static()`/`reverse()` URL resolution and the
`SoupNode` HTML utilities (django_components.util.html, not among these
sources) — are modelled from their documented interfaces on the canonical
tag shapes they produce.
-/

inductive RenderTypeM where
  | document
  | fragment
deriving DecidableEq

/-- `CSS_DEPENDENCY_PLACEHOLDER` (dependencies.py line 269). -/
def cssPlaceholderL : Str := "<link name=\"CSS_PLACEHOLDER\">".toList

/-- `JS_DEPENDENCY_PLACEHOLDER` (dependencies.py line 270). -/
def jsPlaceholderL : Str := "<script name=\"JS_PLACEHOLDER\"></script>".toList

/-- One pass of `PLACEHOLDER_REGEX.sub` with `on_replace_match`
(dependencies.py lines 344-366): replace every CSS/JS placeholder and
record which kinds were found.  Returns (output, foundCss, foundJs). -/
def substGo : Nat → Str → Str → Str → Str × Bool × Bool
  | _, [], _, _ => ([], false, false)
  | 0, rest, _, _ => (rest, false, false)
  | fuel + 1, c :: cs, cssRep, jsRep =>
    if startsWithL cssPlaceholderL (c :: cs) then
      let next := substGo fuel ((c :: cs).drop cssPlaceholderL.length) cssRep jsRep
      (cssRep ++ next.1, true, next.2.2)
    else if startsWithL jsPlaceholderL (c :: cs) then
      let next := substGo fuel ((c :: cs).drop jsPlaceholderL.length) cssRep jsRep
      (jsRep ++ next.1, next.2.1, true)
    else
      let next := substGo fuel cs cssRep jsRep
      (c :: next.1, next.2.1, next.2.2)

def substPlaceholders (content cssRep jsRep : Str) : Str × Bool × Bool :=
  substGo content.length content cssRep jsRep

/-- Django `Media.render_js` tag for a URL (external collaborator,
canonical shape). -/
def renderScriptSrcTag (url : Str) : Str :=
  "<script src=\"".toList ++ url ++ "\"></script>".toList

/-- Django `Media.render_css` tag for a URL under the `all` medium
(external collaborator, canonical shape). -/
def renderLinkTag (url : Str) : Str :=
  "<link href=\"".toList ++ url ++ "\" media=\"all\" rel=\"stylesheet\">".toList

/-- `static("django_components/django_components.min.js")` as resolved by
the default static-files storage (external collaborator). -/
def coreStaticUrl : Str := "/static/django_components/django_components.min.js".toList

/-- The remainder of `l` after the first occurrence of `needle`, if any. -/
def afterSub (needle : Str) : Str → Option Str
  | [] => if startsWithL needle [] then some [] else none
  | c :: cs =>
    if startsWithL needle (c :: cs) then some ((c :: cs).drop needle.length)
    else afterSub needle cs

/-- Modelled from the spec: `SoupNode.from_fragment(tag)[0].get_attr(attr)`
(django_components.util.html, not among these sources) — extract the
quoted value of `attr` from a canonical media tag. -/
def extractUrlAttr (attr : Str) (tag : Str) : Option Str :=
  (afterSub (' ' :: (attr ++ "=\"".toList)) tag).map
    (fun r => r.takeWhile (fun c => ! (c == '\"')))

/-- Loop body of `_postprocess_media_tags` (dependencies.py lines 562-594):
extract the URL attribute of each tag (fatal if absent or blank) and keep
the first tag seen for each URL, in first-URL order. -/
def ppGo (attrName : Str) : List Str → List (Str × Str) → Except Str (List (Str × Str))
  | [], acc => .ok acc
  | tag :: rest, acc =>
    match extractUrlAttr attrName (pyStrip tag) with
    | none => .error ("Media entry missing a value for attribute ".toList ++ attrName)
    | some url =>
      if url.any (fun c => ! pySpace c) then
        if (acc.find? (fun e => e.1 == url)).isSome then ppGo attrName rest acc
        else ppGo attrName rest (acc ++ [(url, tag)])
      else .error ("Media entry missing a value for attribute ".toList ++ attrName)

/-- `_postprocess_media_tags`: returns (deduplicated tags, URLs). -/
def postprocessMediaTags (scriptType : Str) (tags : List Str) : Except Str (List Str × List Str) :=
  let attrName := if scriptType = "js".toList then "src".toList else "href".toList
  match ppGo attrName tags [] with
  | .error e => .error e
  | .ok acc => .ok (acc.map (·.2), acc.map (·.1))

/-- `get_script_content` (dependencies.py lines 648-656). -/
def getScriptContent (scriptType : Str) (cls : CompCls) (cache : Cache) : Option Str :=
  cacheGet cache (genCacheKey cls.clsHash scriptType)

/-- `_get_script_tag` (dependencies.py lines 659-682): wrap the cached
inlined content in a literal tag, refusing content that would close the
wrapper early.  A cache miss would crash the `in` test on `None`. -/
def getScriptTag (scriptType : Str) (cls : CompCls) (cache : Cache) : Except Str Str :=
  match getScriptContent scriptType cls cache with
  | none => .error "TypeError: argument of type NoneType is not iterable".toList
  | some script =>
    if scriptType = "js".toList then
      if containsSub script "</script".toList then
        .error "Content of Component.js contains script end tag".toList
      else .ok ("<script>".toList ++ script ++ "</script>".toList)
    else if scriptType = "css".toList then
      if containsSub script "</style".toList then
        .error "Content of Component.css contains style end tag".toList
      else .ok ("<style>".toList ++ script ++ "</style>".toList)
    else .ok script

/-- `get_script_url` (dependencies.py lines 685-697): `reverse` of the
cache endpoint with the URLconf mounted at `/components/`. -/
def getScriptUrl (scriptType : Str) (cls : CompCls) : Str :=
  "/components/cache/".toList ++ cls.clsHash ++ ".".toList ++ scriptType

/-- The weak-value `comp_hash_mapping` registry, as an association list. -/
abbrev Registry := List (Str × CompCls)

def lookupComp (reg : Registry) (h : Str) : Option CompCls :=
  (reg.find? (fun e => e.1 == h)).map (·.2)

structure PreparedTags where
  toLoadJsUrls : List Str
  toLoadCssUrls : List Str
  inlinedJsTags : List Str
  inlinedCssTags : List Str
  loadedJsUrls : List Str
  loadedCssUrls : List Str
deriving DecidableEq

/-- `_prepare_tags_and_urls` (dependencies.py lines 597-645): for a
document, inlined assets become literal tags plus already-loaded URLs; for
a fragment they become URLs for the client-side manager to fetch. -/
def prepareTagsAndUrls (reg : Registry) (cache : Cache) (ty : RenderTypeM) :
    List Str → Except Str PreparedTags
  | [] => .ok ⟨[], [], [], [], [], []⟩
  | h :: hs =>
    match lookupComp reg h with
    | none => .error ("KeyError: ".toList ++ h)
    | some cls =>
      match ty with
      | .document =>
        let jsPart : Except Str (List Str × List Str) :=
          if isNonemptyStr cls.js then
            match getScriptTag "js".toList cls cache with
            | .error e => .error e
            | .ok tag => .ok ([tag], [getScriptUrl "js".toList cls])
          else .ok ([], [])
        match jsPart with
        | .error e => .error e
        | .ok (ijs, ljs) =>
          let cssPart : Except Str (List Str × List Str) :=
            if isNonemptyStr cls.css then
              match getScriptTag "css".toList cls cache with
              | .error e => .error e
              | .ok tag => .ok ([tag], [getScriptUrl "css".toList cls])
            else .ok ([], [])
          match cssPart with
          | .error e => .error e
          | .ok (ics, lcs) =>
            match prepareTagsAndUrls reg cache ty hs with
            | .error e => .error e
            | .ok rest => .ok ⟨rest.toLoadJsUrls, rest.toLoadCssUrls,
                ijs ++ rest.inlinedJsTags, ics ++ rest.inlinedCssTags,
                ljs ++ rest.loadedJsUrls, lcs ++ rest.loadedCssUrls⟩
      | .fragment =>
        match prepareTagsAndUrls reg cache ty hs with
        | .error e => .error e
        | .ok rest => .ok
            ⟨(if isNonemptyStr cls.js then [getScriptUrl "js".toList cls] else []) ++
                rest.toLoadJsUrls,
              (if isNonemptyStr cls.css then [getScriptUrl "css".toList cls] else []) ++
                rest.toLoadCssUrls,
              rest.inlinedJsTags, rest.inlinedCssTags,
              rest.loadedJsUrls, rest.loadedCssUrls⟩

/-- `get_component_media` over all hashes (dependencies.py lines 465-479):
the `Media.js`/`Media.css` URL lists of each involved class. -/
def getCompMedias (reg : Registry) : List Str → Except Str (List (List Str × List Str))
  | [] => .ok []
  | h :: hs =>
    match lookupComp reg h with
    | none => .error ("KeyError: ".toList ++ h)
    | some cls =>
      match getCompMedias reg hs with
      | .error e => .error e
      | .ok rest => .ok ((cls.mediaJs, cls.mediaCss) :: rest)

def b64Char (n : Nat) : Char :=
  "ABCDEFGHIJKLMNOPQRSTUVWXYZabcdefghijklmnopqrstuvwxyz0123456789+/".toList.getD n 'A'

/-- Standard base64 of a byte sequence. -/
def b64Go : List Nat → Str
  | [] => []
  | [a] => [b64Char (a / 4), b64Char (a % 4 * 16), '=', '=']
  | [a, b] => [b64Char (a / 4), b64Char (a % 4 * 16 + b / 16), b64Char (b % 16 * 4), '=']
  | a :: b :: c :: rest =>
    b64Char (a / 4) :: b64Char (a % 4 * 16 + b / 16) :: b64Char (b % 16 * 4 + c / 64) ::
      b64Char (c % 64) :: b64Go rest

/-- `base64.b64encode(tag.encode()).decode()` for the ASCII content at
hand (code points = UTF-8 bytes). -/
def b64 (s : Str) : Str := b64Go (s.map Char.toNat)

/-- `json.dumps` of a list of (base64) strings. -/
def jsonStrList (xs : List Str) : Str :=
  "[".toList ++ joinSep ", ".toList (xs.map (fun s => '\"' :: (s ++ ['\"']))) ++ "]".toList

/-- `json.dumps(exec_script_data)` with the dict insertion order of
`_gen_exec_script` (dependencies.py lines 719-724). -/
def execJson (loadedCss loadedJs toLoadCss toLoadJs : List Str) : Str :=
  "\x7b\"loadedCssUrls\": ".toList ++ jsonStrList loadedCss
    ++ ", \"loadedJsUrls\": ".toList ++ jsonStrList loadedJs
    ++ ", \"toLoadCssTags\": ".toList ++ jsonStrList toLoadCss
    ++ ", \"toLoadJsTags\": ".toList ++ jsonStrList toLoadJs
    ++ "\x7d".toList

/-- `_gen_exec_script` (dependencies.py lines 700-732): `None` when all
four sets are empty, else the base64-encoded JSON manifest block. -/
def genExecScript (toLoadJsTags toLoadCssTags loadedJsUrls loadedCssUrls : List Str) :
    Option Str :=
  if toLoadJsTags.isEmpty && toLoadCssTags.isEmpty &&
      loadedCssUrls.isEmpty && loadedJsUrls.isEmpty then none
  else some ("<script type=\"application/json\" data-djc>".toList
    ++ execJson (loadedCssUrls.map b64) (loadedJsUrls.map b64)
        (toLoadCssTags.map b64) (toLoadJsTags.map b64)
    ++ "</script>".toList)

/-- `_process_dep_declarations` (dependencies.py lines 416-554): returns
(content with markers stripped, final script tags, final css tags). -/
def processDepDeclarations (reg : Registry) (cache : Cache) (content : Str)
    (ty : RenderTypeM) : Except Str (Str × Str × Str) :=
  let scanned := scanMarkers content
  match collectHashes scanned.1 with
  | .error e => .error e
  | .ok compHashes =>
    match prepareTagsAndUrls reg cache ty compHashes with
    | .error e => .error e
    | .ok prep =>
      match getCompMedias reg compHashes with
      | .error e => .error e
      | .ok medias =>
        let jsTagsRaw := ((medias.map (·.1)).flatten ++ prep.toLoadJsUrls).map renderScriptSrcTag
        let cssTagsRaw := ((medias.map (·.2)).flatten ++ prep.toLoadCssUrls).map renderLinkTag
        match postprocessMediaTags "css".toList cssTagsRaw with
        | .error e => .error e
        | .ok (toLoadCssTags, toLoadCssUrls) =>
          match postprocessMediaTags "js".toList jsTagsRaw with
          | .error e => .error e
          | .ok (toLoadJsTags, toLoadJsUrls) =>
            let loadedCssUrls := sortStrs (prep.loadedCssUrls ++
              (if ty = .document then toLoadCssUrls else []))
            let loadedJsUrls := sortStrs (prep.loadedJsUrls ++
              (if ty = .document then toLoadJsUrls else []))
            let execScript := genExecScript
              (if ty = .fragment then toLoadJsTags else [])
              (if ty = .fragment then toLoadCssTags else [])
              loadedJsUrls loadedCssUrls
            let coreTags := if ty = .document then [renderScriptSrcTag coreStaticUrl] else []
            let finalScript := joinAll (coreTags
              ++ (match execScript with | some e => [e] | none => [])
              ++ (if ty = .document then toLoadJsTags else [])
              ++ prep.inlinedJsTags)
            let finalCss := joinAll (prep.inlinedCssTags ++ toLoadCssTags)
            .ok (scanned.2, finalScript, finalCss)

/-- Insert `ins` immediately before the first occurrence of `needle`, or
`none` when `needle` does not occur. -/
def insertBeforeFirst (needle ins : Str) : Str → Option Str
  | [] => none
  | c :: cs =>
    if startsWithL needle (c :: cs) then some (ins ++ (c :: cs))
    else
      match insertBeforeFirst needle ins cs with
      | none => none
      | some r => some (c :: r)

/-- Modelled from the spec: `_insert_js_css_to_default_locations`
(dependencies.py lines 735-776) delegates HTML parsing to `SoupNode`
(django_components.util.html, not among these sources).  Per the spec, CSS
is appended at the end of `<head>` and JS at the end of `<body>`, and
`None` is returned when no change was made; appending at the end of a
section is modelled as inserting immediately before its closing tag. -/
def insertJsCssToDefaultLocations (html : Str) (jsContent cssContent : Option Str) :
    Option Str :=
  if html.isEmpty then none
  else
    let cssStep : Str × Bool :=
      match cssContent with
      | none => (html, false)
      | some cssC =>
        match insertBeforeFirst "</head>".toList cssC html with
        | some r => (r, true)
        | none => (html, false)
    let jsStep : Str × Bool :=
      match jsContent with
      | none => (cssStep.1, false)
      | some jsC =>
        match insertBeforeFirst "</body>".toList jsC cssStep.1 with
        | some r => (r, true)
        | none => (cssStep.1, false)
    if cssStep.2 || jsStep.2 then some jsStep.1 else none

/-- `render_dependencies` (dependencies.py lines 288-388): placeholder
substitution, default head/body injection for documents when a placeholder
is missing, and the trailing manifest append for fragments. -/
def renderDependenciesM (reg : Registry) (cache : Cache) (content : Str)
    (ty : RenderTypeM) : Except Str Str :=
  match processDepDeclarations reg cache content ty with
  | .error e => .error e
  | .ok (stripped, jsDeps, cssDeps) =>
    let cssRep := if ty = .document then cssDeps else []
    let jsRep := if ty = .document then jsDeps else []
    let subbed := substPlaceholders stripped cssRep jsRep
    let afterDefault :=
      if ty = .document && (!subbed.2.2 || !subbed.2.1) then
        match insertJsCssToDefaultLocations subbed.1
            (if subbed.2.2 then none else some jsDeps)
            (if subbed.2.1 then none else some cssDeps) with
        | some t => t
        | none => subbed.1
      else subbed.1
    .ok (if ty = .fragment then afterDefault ++ jsDeps else afterDefault)

/-!
## C4 scenario: one component with inlined JS and CSS, no `Media` files
-/

def comp4 : CompCls :=
  ⟨"Comp".toList, "Comp_abc123".toList, some "console.log(1)".toList,
    some "body\x7bcolor:red\x7d".toList, [], []⟩

def reg4 : Registry := [("Comp_abc123".toList, comp4)]

/-- The cache after `comp4` has been rendered once. -/
def cache4 : Cache := renderCacheAssets comp4 []

def html4 : Str :=
  ("<html><head>" ++ "<link name=\"CSS_PLACEHOLDER\">" ++ "</head><body><div>hi</div>"
    ++ "<script name=\"JS_PLACEHOLDER\"></script>" ++ "</body></html>").toList

/-- The composed document: `comp4`'s marker followed by its HTML. -/
def doc4 : Str := mkMarker "Comp_abc123".toList "c1a2b3".toList ++ html4

def outOf (e : Except Str Str) : Str :=
  match e with
  | .ok o => o
  | .error _ => []

/-- Opening tag of the JSON manifest block emitted by `_gen_exec_script`. -/
def manifestOpen : Str := "<script type=\"application/json\" data-djc>".toList

def outD4 : Str := outOf (renderDependenciesM reg4 cache4 doc4 .document)

def outF4 : Str := outOf (renderDependenciesM reg4 cache4 doc4 .fragment)

/-- C1: a GET to the cache endpoint for the CSS of a component class that
declares `css = "body{color:red}"` but no `js` still returns 404 after the
class has been rendered, because `cache_inlined_css` guards on
`comp_cls.js` (dependencies.py line 165) and therefore never caches the
CSS of a JS-less class; before any render it returns 404 as well.  For a
class that also declares JS, the CSS is cached and served with 200 and
content-type `text/css`, which shows the guard (not the endpoint) is at
fault. -/
theorem c1_css_cache_bug :
    cachedScriptView "GET".toList cssOnlyComp.clsHash "css".toList
        (renderCacheAssets cssOnlyComp []) = ⟨404, [], []⟩
    ∧ renderCacheAssets cssOnlyComp [] = []
    ∧ cachedScriptView "GET".toList cssOnlyComp.clsHash "css".toList [] = ⟨404, [], []⟩
    ∧ cachedScriptView "GET".toList jsCssComp.clsHash "css".toList
        (renderCacheAssets jsCssComp []) =
        ⟨200, "b\x7bc:d\x7d".toList, "text/css".toList⟩ := by
  decide

/-- C8 counterexample: the claim says `cache_inlined` is a no-op when the
*content* argument is empty or whitespace-only; but the guard inspects the
class's `js` attribute, so for a class with non-blank `js` a call with
whitespace-only content writes a (stripped, hence empty) entry — the cache
does not stay empty. -/
theorem c8_whitespace_counterexample :
    cacheInlinedJs jsOnlyComp " ".toList [] ≠ ([] : Cache) := by
  decide

/-- C8 (amended): for a class with non-blank `js`, two successive
`cache_inlined_js` calls leave exactly one entry for the class's js key,
holding the *stripped first* content — the second call's content is
ignored; for a class whose `js` attribute is blank, every call is a no-op
(the no-op guard inspects the class attribute, which at the call site
equals the content). -/
theorem c8_first_write_wins (cls : CompCls) (c1 c2 : Str) :
    (isNonemptyStr cls.js = true →
      cacheInlinedJs cls c2 (cacheInlinedJs cls c1 []) =
        [(genCacheKey cls.clsHash "js".toList, pyStrip c1)])
    ∧ (isNonemptyStr cls.js = false → ∀ c0 : Cache, cacheInlinedJs cls c1 c0 = c0) := by
  constructor
  · intro hjs
    simp only [cacheInlinedJs, hjs, Bool.not_true, Bool.false_eq_true, if_false]
    have h1 : cacheHas [] (genCacheKey cls.clsHash "js".toList) = false := by
      simp [cacheHas, cacheGet, List.find?]
    simp only [h1, Bool.false_eq_true, if_false]
    have h2 : cacheScript cls c1 "js".toList [] =
        [(genCacheKey cls.clsHash "js".toList, pyStrip c1)] := by
      simp [cacheScript, cacheSet, cacheHas, cacheGet, List.find?]
    rw [h2]
    have h3 : cacheHas [(genCacheKey cls.clsHash "js".toList, pyStrip c1)]
        (genCacheKey cls.clsHash "js".toList) = true := by
      simp [cacheHas, cacheGet, List.find?]
    simp only [h3, if_true]
  · intro hjs c0
    simp [cacheInlinedJs, hjs]

/-- Witness for `c8_first_write_wins` at a concrete class and contents. -/
theorem c8_first_write_wins_witness :
    (isNonemptyStr jsOnlyComp.js = true
      ∧ cacheInlinedJs jsOnlyComp "b".toList (cacheInlinedJs jsOnlyComp " a ".toList []) =
          [(genCacheKey jsOnlyComp.clsHash "js".toList, pyStrip " a ".toList)])
    ∧ (isNonemptyStr cssOnlyComp.js = false
      ∧ cacheInlinedJs cssOnlyComp "zzz".toList [] = ([] : Cache)) :=
  ⟨⟨by decide, (c8_first_write_wins jsOnlyComp " a ".toList "b".toList).1 (by decide)⟩,
   ⟨by decide, (c8_first_write_wins cssOnlyComp "zzz".toList "irrelevant".toList).2 (by decide) []⟩⟩

/-- C2 counterexample: with an empty pre-call stack, an exception raised by
`get_context_data` (after the frame push) leaves the frame on the stack —
the post-call depth is 1, not the pre-call 0.  There is no `try/finally`
around the pop at component.py line 774. -/
theorem c2_stack_counterexample :
    ((renderImplFrames [] ⟨some ⟨[], [], []⟩, none⟩
        ⟨.ok (), .error "KeyError: 'x'".toList, .ok (), .ok (), .ok []⟩).1).length ≠
      ([] : List RenderStackItemM).length := by
  decide

/-- C2 (amended): the render stack is restored to its pre-call state when
`render` returns normally, and also when input validation fails (before
the frame push); but when an exception is raised at any later step
(context building, template resolution, rendering, postprocessing) the
pushed frame is NOT popped and the stack is the pre-call stack plus one
frame. -/
theorem c2_stack_discipline (stack : List RenderStackItemM) (frame : RenderStackItemM)
    (s : RenderSteps) :
    ((∃ out, (renderImplFrames stack frame s).2 = .ok out) →
        (renderImplFrames stack frame s).1 = stack)
    ∧ ((∃ e, s.validateInputs = .error e) → (renderImplFrames stack frame s).1 = stack)
    ∧ ((s.validateInputs = .ok () ∧ ∃ e, (renderImplFrames stack frame s).2 = .error e) →
        (renderImplFrames stack frame s).1 = stack ++ [frame]) := by
  obtain ⟨v, cd, rt, rr, pp⟩ := s
  cases v <;> cases cd <;> cases rt <;> cases rr <;> cases pp <;>
    simp [renderImplFrames, List.dropLast_concat]

/-- Witness for `c2_stack_discipline`: the three exit paths at concrete
inputs — normal return, validation failure, context-building failure. -/
theorem c2_stack_discipline_witness :
    ((renderImplFrames ([] : List RenderStackItemM) ⟨some ⟨[], [], []⟩, none⟩
        ⟨.ok (), .ok (), .ok (), .ok (), .ok "x".toList⟩).1 = [])
    ∧ ((renderImplFrames ([] : List RenderStackItemM) ⟨some ⟨[], [], []⟩, none⟩
        ⟨.error "ValidationError".toList, .ok (), .ok (), .ok (), .ok "x".toList⟩).1 = [])
    ∧ ((renderImplFrames ([] : List RenderStackItemM) ⟨some ⟨[], [], []⟩, none⟩
        ⟨.ok (), .error "KeyError: 'x'".toList, .ok (), .ok (), .ok "x".toList⟩).1 =
        [] ++ [⟨some ⟨[], [], []⟩, none⟩]) :=
  ⟨(c2_stack_discipline [] ⟨some ⟨[], [], []⟩, none⟩
      ⟨.ok (), .ok (), .ok (), .ok (), .ok "x".toList⟩).1 ⟨_, rfl⟩,
   (c2_stack_discipline [] ⟨some ⟨[], [], []⟩, none⟩
      ⟨.error "ValidationError".toList, .ok (), .ok (), .ok (), .ok "x".toList⟩).2.1 ⟨_, rfl⟩,
   (c2_stack_discipline [] ⟨some ⟨[], [], []⟩, none⟩
      ⟨.ok (), .error "KeyError: 'x'".toList, .ok (), .ok (), .ok "x".toList⟩).2.2 ⟨rfl, _, rfl⟩⟩

/-- C10: calling `inject()` with an empty render stack raises the
`input`-property RuntimeError ("Tried to access Component input while
outside of rendering execution"); and on any stack whose frames all carry
an input (as every frame pushed by `_render_impl` does), `inject` never
reaches the `if self.input is None` branch — it either raises that same
accessor error or succeeds. -/
theorem c10_inject_accessor (name key : Str) (dflt : Option Str)
    (stack : List RenderStackItemM)
    (hframes : ∀ it ∈ stack, it.inputOpt.isSome = true) :
    (stack = [] → injectM name stack key dflt = .error (inputErrMsg name))
    ∧ (stack ≠ [] → ∃ v, injectM name stack key dflt = .ok v) := by
  constructor
  · intro h
    subst h
    rfl
  · intro hne
    have hlast : stack.getLast? = some (stack.getLast hne) :=
      List.getLast?_eq_getLast stack hne
    have hmem : stack.getLast hne ∈ stack := List.getLast_mem hne
    have hsome : (stack.getLast hne).inputOpt.isSome = true := hframes _ hmem
    obtain ⟨inp, hinp⟩ := Option.isSome_iff_exists.mp hsome
    exact ⟨getInjectedContextVar inp key dflt, by
      simp [injectM, inputProp, hlast, hinp]⟩

/-- Witness for `c10_inject_accessor` at the empty stack. -/
theorem c10_inject_accessor_witness :
    (∀ it ∈ ([] : List RenderStackItemM), it.inputOpt.isSome = true)
    ∧ injectM "MyComp".toList [] "key".toList none = .error (inputErrMsg "MyComp".toList) :=
  ⟨by simp,
   (c10_inject_accessor "MyComp".toList "key".toList none [] (by simp)).1 rfl⟩

/-- Helper: `split("\n", 1)[1]` of `p ++ "\n" ++ m` is `m` when `p`
contains no newline. -/
theorem afterFirstNewline_append (p m : Str) (hp : ∀ c ∈ p, (c == '\n') = false) :
    afterFirstNewline (p ++ '\n' :: m) = m := by
  induction p with
  | nil => simp [afterFirstNewline, List.dropWhile_cons]
  | cons a as ih =>
    have ha : (a == '\n') = false := hp a (by simp)
    have hrest : ∀ c ∈ as, (c == '\n') = false := fun c hc => hp c (by simp [hc])
    simpa [afterFirstNewline, List.dropWhile_cons, ha] using ih hrest

/-- C5: when `Inner` fails while rendered inside `Outer`, each `_render`
level prepends its component name exactly once; the surfaced message is
`"An error occured while rendering components Outer > Inner:\n"` followed
by the original message, with no duplicated prefix, and the accumulated
component list is outermost-first. -/
theorem c5_breadcrumb (m : Str) :
    annotateRenderError "Outer".toList (annotateRenderError "Inner".toList ⟨[], m⟩) =
      ⟨["Outer".toList, "Inner".toList],
        "An error occured while rendering components Outer > Inner:\n".toList ++ m⟩ := by
  have hb1 : breadcrumbText ["Inner".toList] =
      "An error occured while rendering components Inner:".toList ++ ['\n'] := by decide
  have hb2 : breadcrumbText ["Outer".toList, "Inner".toList] =
      "An error occured while rendering components Outer > Inner:\n".toList := by decide
  have hpre : ∀ c ∈ "An error occured while rendering components Inner:".toList,
      (c == '\n') = false := by decide
  simp only [annotateRenderError, List.isEmpty_nil, List.isEmpty_cons, if_true,
    Bool.false_eq_true, if_false]
  rw [hb1, List.append_assoc, List.singleton_append,
    afterFirstNewline_append _ _ hpre, hb2]

/-- C6: `_get_template` succeeds iff exactly one of the four template
sources {`template_name`, `get_template_name`, `template`, `get_template`}
yields a value — zero or more than one configured source is a fatal
`ImproperlyConfigured` error raised before any rendering — and with
exactly one source set, the named-template sources resolve to a
by-name template and the inline sources to an inline template. -/
theorem c6_template_source_resolution (a b c d : Option Str) (n t : Str) :
    (isOkB (getTemplateM a b c d) = true ↔
      a.isSome.toNat + b.isSome.toNat + c.isSome.toNat + d.isSome.toNat = 1)
    ∧ getTemplateM (some n) none none none = .ok (.fromName n)
    ∧ getTemplateM none (some n) none none = .ok (.fromName n)
    ∧ getTemplateM none none (some t) none = .ok (.fromInline t)
    ∧ getTemplateM none none none (some t) = .ok (.fromInline t) := by
  refine ⟨?_, rfl, rfl, rfl, rfl⟩
  cases a <;> cases b <;> cases c <;> cases d <;> simp [getTemplateM, isOkB]

/-- Helper: a string starts with itself (followed by anything). -/
theorem startsWithL_append (p r : Str) : startsWithL p (p ++ r) = true := by
  induction p with
  | nil => rfl
  | cons a as ih => simp [startsWithL, ih]

/-- Helper: `takeWhile` over `xs ++ y :: rest` stops exactly at `y` when
all of `xs` satisfies the predicate and `y` does not. -/
theorem takeWhile_append_stop (p : Char → Bool) (xs : Str) (y : Char) (rest : Str)
    (hxs : ∀ c ∈ xs, p c = true) (hy : p y = false) :
    (xs ++ y :: rest).takeWhile p = xs := by
  induction xs with
  | nil => simp [List.takeWhile, hy]
  | cons a as ih =>
    have ha : p a = true := hxs a (by simp)
    have has : ∀ c ∈ as, p c = true := fun c hc => hxs c (by simp [hc])
    simp [List.takeWhile, ha, ih has]

/-- Helper: `dropWhile` counterpart of `takeWhile_append_stop`. -/
theorem dropWhile_append_stop (p : Char → Bool) (xs : Str) (y : Char) (rest : Str)
    (hxs : ∀ c ∈ xs, p c = true) (hy : p y = false) :
    (xs ++ y :: rest).dropWhile p = y :: rest := by
  induction xs with
  | nil => simp [List.dropWhile, hy]
  | cons a as ih =>
    have ha : p a = true := hxs a (by simp)
    have has : ∀ c ∈ as, p c = true := fun c hc => hxs c (by simp [hc])
    simp [List.dropWhile, ha, ih has]

/-- Helper: the scanner's result does not depend on the fuel as long as
the fuel covers the content length. -/
theorem scanGo_fuel (n : Nat) : ∀ (c : Str), c.length ≤ n →
    ∀ (f₁ f₂ : Nat), c.length ≤ f₁ → c.length ≤ f₂ → scanGo f₁ c = scanGo f₂ c := by
  induction n with
  | zero =>
    intro c hc f₁ f₂ _ _
    have : c = [] := List.length_eq_zero.mp (Nat.le_zero.mp hc)
    subst this
    cases f₁ <;> cases f₂ <;> rfl
  | succ n ih =>
    intro c hc f₁ f₂ h₁ h₂
    cases c with
    | nil => cases f₁ <;> cases f₂ <;> rfl
    | cons x cs =>
      cases f₁ with
      | zero => exact absurd h₁ (by simp)
      | succ m₁ =>
        cases f₂ with
        | zero => exact absurd h₂ (by simp)
        | succ m₂ =>
          have hcs : cs.length ≤ n := by simpa using hc
          have hcs₁ : cs.length ≤ m₁ := by simpa using h₁
          have hcs₂ : cs.length ≤ m₂ := by simpa using h₂
          by_cases hm : startsWithL markerHead (x :: cs) = true
          · have hdw : (((x :: cs).drop markerHead.length).dropWhile commentDataChar).length ≤
                cs.length := by
              have hsplit := congrArg List.length
                (List.takeWhile_append_dropWhile
                  (p := commentDataChar) (l := (x :: cs).drop markerHead.length))
              have hdroplen : ((x :: cs).drop markerHead.length).length =
                  (x :: cs).length - markerHead.length := by
                simp [List.length_drop]
              have hg : markerHead.length = 15 := rfl
              simp only [List.length_append] at hsplit
              simp only [List.length_cons] at hdroplen ⊢
              omega
            have hrem : ((((x :: cs).drop markerHead.length).dropWhile commentDataChar).drop
                markerTail.length).length ≤ cs.length := by
              have := List.length_drop markerTail.length
                (((x :: cs).drop markerHead.length).dropWhile commentDataChar)
              omega
            simp only [scanGo, hm, if_true]
            by_cases hin :
                (!(((x :: cs).drop markerHead.length).takeWhile commentDataChar).isEmpty &&
                  startsWithL markerTail
                    (((x :: cs).drop markerHead.length).dropWhile commentDataChar)) = true
            · simp only [hin, if_true]
              rw [ih _ (Nat.le_trans hrem hcs) m₁ m₂ (Nat.le_trans hrem hcs₁)
                (Nat.le_trans hrem hcs₂)]
            · simp only [hin, Bool.false_eq_true, if_false]
              rw [ih cs hcs m₁ m₂ hcs₁ hcs₂]
          · simp only [scanGo, hm, Bool.false_eq_true, if_false]
            rw [ih cs hcs m₁ m₂ hcs₁ hcs₂]

/-- Helper: a hash character that survives the comment scan is a comment
data character. -/
theorem hashCharNoDot_comment (c : Char) (hc : hashCharNoDot c = true) :
    commentDataChar c = true := by
  simp only [hashCharNoDot, Bool.or_eq_true] at hc
  simp only [commentDataChar, Bool.or_eq_true]
  tauto

/-- Helper: a hash character that survives the comment scan is in the
`SCRIPT_NAME_REGEX` hash class. -/
theorem hashCharNoDot_script (c : Char) (hc : hashCharNoDot c = true) :
    scriptHashChar c = true := by
  simp only [hashCharNoDot, Bool.or_eq_true] at hc
  simp only [scriptHashChar, Bool.or_eq_true]
  tauto

/-- Helper: such a character is not a comma. -/
theorem hashCharNoDot_ne_comma (c : Char) (hc : hashCharNoDot c = true) :
    (c == ',') = false := by
  cases hcc : (c == ',') with
  | false => rfl
  | true =>
    have : c = ',' := by simpa using hcc
    subst this
    exact absurd hc (by decide)

/-- Helper: a word character is a comment data character. -/
theorem wordChar_comment (c : Char) (hc : wordChar c = true) :
    commentDataChar c = true := by
  simp only [commentDataChar, Bool.or_eq_true]
  tauto

/-- Helper: the scanner consumes one well-formed marker and recurses on
the remainder. -/
theorem scanGo_marker (f : Nat) (h i rest : Str)
    (hf : (mkMarker h i ++ rest).length ≤ f)
    (hh : ∀ c ∈ h, commentDataChar c = true) (hi : ∀ c ∈ i, wordChar c = true) :
    scanGo f (mkMarker h i ++ rest) =
      ((h ++ ',' :: i) :: (scanMarkers rest).1, (scanMarkers rest).2) := by
  have hshape : mkMarker h i ++ rest =
      markerHead ++ ((h ++ ',' :: i) ++ (' ' :: ("-->".toList ++ rest))) := by
    have hmt : markerTail ++ rest = ' ' :: ("-->".toList ++ rest) := rfl
    simp only [mkMarker, List.append_assoc, List.cons_append, ← hmt]
  rcases hc : mkMarker h i ++ rest with _ | ⟨x, t⟩
  · exact absurd (congrArg List.length hc) (by simp [mkMarker])
  · cases f with
    | zero =>
      rw [hc] at hf
      exact absurd hf (by simp)
    | succ m =>
      have hall : ∀ c ∈ h ++ ',' :: i, commentDataChar c = true := by
        intro c hmem
        rcases List.mem_append.mp hmem with hmem | hmem
        · exact hh c hmem
        · rcases List.mem_cons.mp hmem with hmem | hmem
          · subst hmem; decide
          · exact wordChar_comment c (hi c hmem)
      have hstart : startsWithL markerHead (x :: t) = true := by
        rw [← hc, hshape]
        exact startsWithL_append _ _
      have hdropHead : (x :: t).drop markerHead.length =
          (h ++ ',' :: i) ++ (' ' :: ("-->".toList ++ rest)) := by
        rw [← hc, hshape]
        exact List.drop_left _ _
      have htake : ((x :: t).drop markerHead.length).takeWhile commentDataChar =
          h ++ ',' :: i := by
        rw [hdropHead]
        exact takeWhile_append_stop _ _ _ _ hall (by decide)
      have hdrop : ((x :: t).drop markerHead.length).dropWhile commentDataChar =
          ' ' :: ("-->".toList ++ rest) := by
        rw [hdropHead]
        exact dropWhile_append_stop _ _ _ _ hall (by decide)
      have hrun : (h ++ ',' :: i).isEmpty = false := by
        cases h <;> rfl
      have htail : startsWithL markerTail (' ' :: ("-->".toList ++ rest)) = true := by
        have : (' ' :: ("-->".toList ++ rest)) = markerTail ++ rest := rfl
        rw [this]
        exact startsWithL_append _ _
      have hdropTail : (' ' :: ("-->".toList ++ rest)).drop markerTail.length = rest := rfl
      have hrest : rest.length ≤ m := by
        have h15 : markerHead.length = 15 := rfl
        have h4 : markerTail.length = 4 := rfl
        simp only [mkMarker, List.length_append, List.length_cons] at hf
        omega
      simp only [scanGo, hstart, if_true, htake, hdrop, hrun, Bool.not_false, htail,
        Bool.and_self, if_true, hdropTail]
      rw [scanGo_fuel rest.length rest (Nat.le_refl _) m rest.length hrest (Nat.le_refl _)]
      rfl

/-- Helper: `scanMarkers` over a marker-led document. -/
theorem scanMarkers_marker (h i rest : Str)
    (hh : ∀ c ∈ h, commentDataChar c = true) (hi : ∀ c ∈ i, wordChar c = true) :
    scanMarkers (mkMarker h i ++ rest) =
      ((h ++ ',' :: i) :: (scanMarkers rest).1, (scanMarkers rest).2) :=
  scanGo_marker _ h i rest (Nat.le_refl _) hh hi

/-- Helper: `SCRIPT_NAME_REGEX` recovers the embedded `(hash, id)` pair
from `hash ++ "," ++ id` when the hash avoids commas. -/
theorem parsePart_mk (h i : Str) (hne : h ≠ []) (hh : ∀ c ∈ h, hashCharNoDot c = true)
    (ine : i ≠ []) (hi : ∀ c ∈ i, wordChar c = true) :
    parsePart (h ++ ',' :: i) = some (h, i) := by
  have hnc : ∀ c ∈ h, (fun c => ! (c == ',')) c = true := by
    intro c hc
    simp [hashCharNoDot_ne_comma c (hh c hc)]
  have htake : (h ++ ',' :: i).takeWhile (fun c => ! (c == ',')) = h :=
    takeWhile_append_stop _ _ _ _ hnc (by decide)
  have hdrop : (h ++ ',' :: i).dropWhile (fun c => ! (c == ',')) = ',' :: i :=
    dropWhile_append_stop _ _ _ _ hnc (by decide)
  have hhe : h.isEmpty = false := by cases h with
    | nil => exact absurd rfl hne
    | cons a as => rfl
  have hie : i.isEmpty = false := by cases i with
    | nil => exact absurd rfl ine
    | cons a as => rfl
  have hhs : h.all scriptHashChar = true :=
    List.all_eq_true.mpr fun c hc => hashCharNoDot_script c (hh c hc)
  have his : i.all wordChar = true := List.all_eq_true.mpr hi
  simp only [parsePart, htake, hdrop, hhe, hie, hhs, his, Bool.not_false, Bool.and_self,
    if_true]

/-- C3 counterexample: `class_hash = "a.b"` matches the claim's allowed
class `[\w\-\./]+` (as `SCRIPT_NAME_REGEX` does), but the comment-scan
regex `COMPONENT_COMMENT_REGEX` uses the class `[\w\-,/]` *without* the
dot, so the embedded marker is neither recovered nor stripped: the scan
returns no pair and leaves the marker in the output. -/
theorem c3_dot_counterexample :
    "a.b".toList.all scriptHashChar = true
    ∧ "c".toList.all wordChar = true
    ∧ (scanMarkers (mkMarker "a.b".toList "c".toList ++ "<p>x</p>".toList)).1 = []
    ∧ (scanMarkers (mkMarker "a.b".toList "c".toList ++ "<p>x</p>".toList)).2 ≠
        "<p>x</p>".toList := by
  decide

/-- C3 (amended): for every `(class_hash, component_id)` pair in which the
hash is a nonempty string of word characters, dashes and slashes (the
dot-free intersection of the two regexes' classes) and the id matches
`[\w]+`, embedding the marker before marker-free HTML and scanning
recovers exactly that pair and strips the marker from the output. -/
theorem c3_marker_roundtrip (h i html : Str) (hne : h ≠ [])
    (hh : ∀ c ∈ h, hashCharNoDot c = true) (ine : i ≠ [])
    (hi : ∀ c ∈ i, wordChar c = true) (hhtml : scanMarkers html = ([], html)) :
    scanMarkers (mkMarker h i ++ html) = ([h ++ ',' :: i], html)
    ∧ parsePart (h ++ ',' :: i) = some (h, i) := by
  constructor
  · rw [scanMarkers_marker h i html (fun c hc => hashCharNoDot_comment c (hh c hc)) hi,
      hhtml]
  · exact parsePart_mk h i hne hh ine hi

/-- Witness for `c3_marker_roundtrip` at a concrete pair and document. -/
theorem c3_marker_roundtrip_witness :
    scanMarkers (mkMarker "a-b".toList "c1".toList ++ "<p>x</p>".toList) =
      (["a-b".toList ++ ',' :: "c1".toList], "<p>x</p>".toList)
    ∧ parsePart ("a-b".toList ++ ',' :: "c1".toList) = some ("a-b".toList, "c1".toList) :=
  c3_marker_roundtrip "a-b".toList "c1".toList "<p>x</p>".toList
    (by decide) (by decide) (by decide) (by decide) (by decide)

/-- Helper: the dedup loop drops every part whose hash was already seen. -/
theorem collectGo_skip (seen : List Str) (ps : List Str)
    (hps : ∀ p ∈ ps, ∃ hp ip, parsePart p = some (hp, ip) ∧ hp ∈ seen) :
    collectGo seen ps = .ok [] := by
  induction ps with
  | nil => rfl
  | cons q qs ih =>
    obtain ⟨hp, ip, hparse, hmem⟩ := hps q (by simp)
    have hqs : ∀ p ∈ qs, ∃ hp ip, parsePart p = some (hp, ip) ∧ hp ∈ seen :=
      fun p hpm => hps p (by simp [hpm])
    simp only [collectGo, hparse]
    rw [if_pos hmem]
    exact ih hqs

/-- Helper: scanning a concatenation of markers followed by marker-free
HTML yields the data parts in order and strips them all. -/
theorem scanMarkers_foldr (html : Str) (hhtml : scanMarkers html = ([], html))
    (ps : List (Str × Str))
    (hps : ∀ p ∈ ps, (∀ c ∈ p.1, commentDataChar c = true) ∧ (∀ c ∈ p.2, wordChar c = true)) :
    scanMarkers (ps.foldr (fun p acc => mkMarker p.1 p.2 ++ acc) html) =
      (ps.map (fun p => p.1 ++ ',' :: p.2), html) := by
  induction ps with
  | nil => simpa using hhtml
  | cons q qs ih =>
    have hq := hps q (by simp)
    have hqs : ∀ p ∈ qs,
        (∀ c ∈ p.1, commentDataChar c = true) ∧ (∀ c ∈ p.2, wordChar c = true) :=
      fun p hp => hps p (by simp [hp])
    simp only [List.foldr_cons, List.map_cons]
    rw [scanMarkers_marker q.1 q.2 _ hq.1 hq.2, ih hqs]

/-- C7: a document whose markers name components `A`, `B`, `C` in that
order of first appearance, followed by any repeats drawn from the same
three components, aggregates to the deduplicated class-hash list
`[A, B, C]` in first-appearance order; the later repeats have no effect. -/
theorem c7_dedup_order (A B C iA iB iC html : Str) (tail : List (Str × Str))
    (hA : A ≠ [] ∧ ∀ c ∈ A, hashCharNoDot c = true)
    (hB : B ≠ [] ∧ ∀ c ∈ B, hashCharNoDot c = true)
    (hC : C ≠ [] ∧ ∀ c ∈ C, hashCharNoDot c = true)
    (hiA : iA ≠ [] ∧ ∀ c ∈ iA, wordChar c = true)
    (hiB : iB ≠ [] ∧ ∀ c ∈ iB, wordChar c = true)
    (hiC : iC ≠ [] ∧ ∀ c ∈ iC, wordChar c = true)
    (hAB : A ≠ B) (hAC : A ≠ C) (hBC : B ≠ C)
    (htail : ∀ p ∈ tail,
      (p.1 = A ∨ p.1 = B ∨ p.1 = C) ∧ p.2 ≠ [] ∧ ∀ c ∈ p.2, wordChar c = true)
    (hhtml : scanMarkers html = ([], html)) :
    aggregationHashes (((A, iA) :: (B, iB) :: (C, iC) :: tail).foldr
        (fun p acc => mkMarker p.1 p.2 ++ acc) html) = .ok [A, B, C] := by
  have hvalid : ∀ p ∈ (A, iA) :: (B, iB) :: (C, iC) :: tail,
      (∀ c ∈ p.1, commentDataChar c = true) ∧ (∀ c ∈ p.2, wordChar c = true) := by
    intro p hp
    simp only [List.mem_cons] at hp
    rcases hp with rfl | rfl | rfl | hp
    · exact ⟨fun c hc => hashCharNoDot_comment c (hA.2 c hc), hiA.2⟩
    · exact ⟨fun c hc => hashCharNoDot_comment c (hB.2 c hc), hiB.2⟩
    · exact ⟨fun c hc => hashCharNoDot_comment c (hC.2 c hc), hiC.2⟩
    · obtain ⟨habc, hine, hiw⟩ := htail p hp
      refine ⟨fun c hc => hashCharNoDot_comment c ?_, hiw⟩
      rcases habc with h1 | h1 | h1 <;> rw [h1] at hc
      · exact hA.2 c hc
      · exact hB.2 c hc
      · exact hC.2 c hc
  have hscan := scanMarkers_foldr html hhtml _ hvalid
  have hpA : parsePart (A ++ ',' :: iA) = some (A, iA) :=
    parsePart_mk A iA hA.1 hA.2 hiA.1 hiA.2
  have hpB : parsePart (B ++ ',' :: iB) = some (B, iB) :=
    parsePart_mk B iB hB.1 hB.2 hiB.1 hiB.2
  have hpC : parsePart (C ++ ',' :: iC) = some (C, iC) :=
    parsePart_mk C iC hC.1 hC.2 hiC.1 hiC.2
  have hskip : collectGo [C, B, A] (tail.map (fun p => p.1 ++ ',' :: p.2)) = .ok [] := by
    apply collectGo_skip
    intro p hp
    obtain ⟨q, hq, rfl⟩ := List.mem_map.mp hp
    obtain ⟨habc, hine, hiw⟩ := htail q hq
    have hqh : q.1 ≠ [] ∧ ∀ c ∈ q.1, hashCharNoDot c = true := by
      rcases habc with h1 | h1 | h1 <;> rw [h1]
      · exact hA
      · exact hB
      · exact hC
    refine ⟨q.1, q.2, parsePart_mk q.1 q.2 hqh.1 hqh.2 hine hiw, ?_⟩
    rcases habc with h1 | h1 | h1 <;> simp [h1]
  have hBA : ¬ B = A := fun e => hAB e.symm
  have hCA : ¬ C = A := fun e => hAC e.symm
  have hCB : ¬ C = B := fun e => hBC e.symm
  simp only [aggregationHashes, collectHashes, hscan, List.map_cons]
  simp [collectGo, hpA, hpB, hpC, hBA, hCA, hCB, hskip]

/-- Witness for `c7_dedup_order`: components `Alpha_1`, `Beta_2`,
`Gamma_3` rendered in that order, with `Beta_2` rendered twice more
afterwards. -/
theorem c7_dedup_order_witness :
    aggregationHashes ((("Alpha_1".toList, "1".toList) :: ("Beta_2".toList, "2".toList) ::
        ("Gamma_3".toList, "3".toList) ::
        [("Beta_2".toList, "9".toList), ("Beta_2".toList, "8".toList)]).foldr
        (fun p acc => mkMarker p.1 p.2 ++ acc) "<p>x</p>".toList) =
      .ok ["Alpha_1".toList, "Beta_2".toList, "Gamma_3".toList] :=
  c7_dedup_order "Alpha_1".toList "Beta_2".toList "Gamma_3".toList
    "1".toList "2".toList "3".toList "<p>x</p>".toList
    [("Beta_2".toList, "9".toList), ("Beta_2".toList, "8".toList)]
    (by decide) (by decide) (by decide) (by decide) (by decide) (by decide)
    (by decide) (by decide) (by decide) (by decide) (by decide)

set_option maxRecDepth 100000 in
/-- C4 counterexample: for a document-type render of a tree whose declared
assets are all inlined (`comp4`), the aggregated output DOES contain a
manifest data block — `_gen_exec_script` emits one whenever any of its
four sets is non-empty, and for a document the inlined assets' URLs are
recorded in `loadedCssUrls`/`loadedJsUrls` so the client does not refetch
them.  The claim's "contains no manifest data block" is false. -/
theorem c4_document_manifest_counterexample :
    isOkB (renderDependenciesM reg4 cache4 doc4 .document) = true
    ∧ containsSub outD4 manifestOpen = true := by
  exact ⟨by decide, by decide⟩

set_option maxRecDepth 100000 in
/-- C4 (amended): for the document render the output contains the literal
`<style>` and `<script>` blocks with the inlined content and exactly one
manifest block whose `toLoadCssTags`/`toLoadJsTags` are empty and whose
`loadedCssUrls`/`loadedJsUrls` list the assets' cache URLs; for the
identical tree rendered as a fragment the output contains no literal
inlined blocks but exactly one manifest block listing the assets under
`toLoadCssTags`/`toLoadJsTags` (base64-encoded tags), with empty
`loaded*Urls`. -/
theorem c4_document_fragment_divergence :
    (isOkB (renderDependenciesM reg4 cache4 doc4 .document) = true
      ∧ containsSub outD4 "<style>body\x7bcolor:red\x7d</style>".toList = true
      ∧ containsSub outD4 "<script>console.log(1)</script>".toList = true
      ∧ countSub outD4 manifestOpen = 1
      ∧ containsSub outD4 "\"toLoadCssTags\": []".toList = true
      ∧ containsSub outD4 "\"toLoadJsTags\": []".toList = true
      ∧ containsSub outD4 ("\"loadedCssUrls\": [\"".toList
          ++ b64 (getScriptUrl "css".toList comp4) ++ "\"]".toList) = true
      ∧ containsSub outD4 ("\"loadedJsUrls\": [\"".toList
          ++ b64 (getScriptUrl "js".toList comp4) ++ "\"]".toList) = true)
    ∧ (isOkB (renderDependenciesM reg4 cache4 doc4 .fragment) = true
      ∧ containsSub outF4 "<style>".toList = false
      ∧ containsSub outF4 "<script>console.log(1)</script>".toList = false
      ∧ countSub outF4 manifestOpen = 1
      ∧ containsSub outF4 ("\"toLoadCssTags\": [\"".toList
          ++ b64 (renderLinkTag (getScriptUrl "css".toList comp4)) ++ "\"]".toList) = true
      ∧ containsSub outF4 ("\"toLoadJsTags\": [\"".toList
          ++ b64 (renderScriptSrcTag (getScriptUrl "js".toList comp4)) ++ "\"]".toList) = true
      ∧ containsSub outF4 "\"loadedCssUrls\": []".toList = true
      ∧ containsSub outF4 "\"loadedJsUrls\": []".toList = true) := by
  refine ⟨⟨?_, ?_, ?_, ?_, ?_, ?_, ?_, ?_⟩, ⟨?_, ?_, ?_, ?_, ?_, ?_, ?_, ?_⟩⟩ <;> decide

/-- Helper: when the placeholder substitution found neither placeholder,
it left the content unchanged. -/
theorem substGo_no_match (fuel : Nat) : ∀ (c cssRep jsRep : Str),
    (substGo fuel c cssRep jsRep).2.1 = false → (substGo fuel c cssRep jsRep).2.2 = false →
    (substGo fuel c cssRep jsRep).1 = c := by
  induction fuel with
  | zero =>
    intro c r1 r2 _ _
    cases c <;> rfl
  | succ n ih =>
    intro c r1 r2 h1 h2
    cases c with
    | nil => rfl
    | cons x cs =>
      by_cases hcss : startsWithL cssPlaceholderL (x :: cs) = true
      · simp only [substGo, hcss, if_true] at h1
        exact absurd h1 (by decide)
      · by_cases hjs : startsWithL jsPlaceholderL (x :: cs) = true
        · simp only [substGo, hcss, hjs, Bool.false_eq_true, if_false, if_true] at h2
          exact absurd h2 (by decide)
        · simp only [substGo, hcss, hjs, Bool.false_eq_true, if_false] at h1 h2 ⊢
          rw [ih cs r1 r2 h1 h2]

/-- C9: placeholder handling of a document-type aggregation pass.
(1) When the (marker-stripped) content contains both the CSS and the JS
placeholder, the assembled assets are substituted at the placeholders and
no default head/body injection happens, even if `<head>`/`<body>` are
present.  (2) When it contains neither placeholder but default insertion
succeeds (CSS before the first `</head>`, JS before the first `</body>`),
the result is that insertion.  (3) When it contains neither placeholder
and neither section, the content is returned unchanged, with no error. -/
theorem c9_placeholder_rules (reg : Registry) (cache : Cache)
    (c stripped jsDeps cssDeps out t : Str) :
    (processDepDeclarations reg cache c .document = .ok (stripped, jsDeps, cssDeps) →
      substPlaceholders stripped cssDeps jsDeps = (out, true, true) →
      renderDependenciesM reg cache c .document = .ok out)
    ∧ (processDepDeclarations reg cache c .document = .ok (stripped, jsDeps, cssDeps) →
      substPlaceholders stripped cssDeps jsDeps = (out, false, false) →
      insertJsCssToDefaultLocations stripped (some jsDeps) (some cssDeps) = some t →
      renderDependenciesM reg cache c .document = .ok t)
    ∧ (processDepDeclarations reg cache c .document = .ok (stripped, jsDeps, cssDeps) →
      substPlaceholders stripped cssDeps jsDeps = (out, false, false) →
      insertJsCssToDefaultLocations stripped (some jsDeps) (some cssDeps) = none →
      renderDependenciesM reg cache c .document = .ok stripped) := by
  refine ⟨?_, ?_, ?_⟩
  · intro hproc hsub
    simp [renderDependenciesM, hproc, hsub]
  · intro hproc hsub hins
    have hout : out = stripped := by
      have h1 : (substPlaceholders stripped cssDeps jsDeps).2.1 = false := by
        rw [hsub]
      have h2 : (substPlaceholders stripped cssDeps jsDeps).2.2 = false := by
        rw [hsub]
      have := substGo_no_match stripped.length stripped cssDeps jsDeps h1 h2
      rw [show substGo stripped.length stripped cssDeps jsDeps =
        substPlaceholders stripped cssDeps jsDeps from rfl, hsub] at this
      exact this.symm ▸ rfl
    subst hout
    simp [renderDependenciesM, hproc, hsub, hins]
  · intro hproc hsub hins
    have hout : out = stripped := by
      have h1 : (substPlaceholders stripped cssDeps jsDeps).2.1 = false := by
        rw [hsub]
      have h2 : (substPlaceholders stripped cssDeps jsDeps).2.2 = false := by
        rw [hsub]
      have := substGo_no_match stripped.length stripped cssDeps jsDeps h1 h2
      rw [show substGo stripped.length stripped cssDeps jsDeps =
        substPlaceholders stripped cssDeps jsDeps from rfl, hsub] at this
      exact this.symm ▸ rfl
    subst hout
    simp [renderDependenciesM, hproc, hsub, hins]

set_option maxRecDepth 100000 in
/-- Witness for `c9_placeholder_rules`: (1) a document with both
placeholders and head/body tags is substituted in place; (2) a document
with head/body but no placeholders receives the assets at the ends of
head and body; (3) a bare paragraph is returned unchanged. -/
theorem c9_placeholder_rules_witness :
    (renderDependenciesM [] []
        ("<html><head>".toList ++ cssPlaceholderL ++ "</head><body>".toList ++
          jsPlaceholderL ++ "</body></html>".toList) .document =
      .ok ("<html><head></head><body>".toList ++ renderScriptSrcTag coreStaticUrl ++
        "</body></html>".toList))
    ∧ (renderDependenciesM [] [] "<html><head>x</head><body>y</body></html>".toList
        .document =
      .ok ("<html><head>x</head><body>y".toList ++ renderScriptSrcTag coreStaticUrl ++
        "</body></html>".toList))
    ∧ (renderDependenciesM [] [] "<p>plain</p>".toList .document =
        .ok "<p>plain</p>".toList) :=
  ⟨(c9_placeholder_rules [] []
      ("<html><head>".toList ++ cssPlaceholderL ++ "</head><body>".toList ++
        jsPlaceholderL ++ "</body></html>".toList)
      ("<html><head>".toList ++ cssPlaceholderL ++ "</head><body>".toList ++
        jsPlaceholderL ++ "</body></html>".toList)
      (renderScriptSrcTag coreStaticUrl) []
      ("<html><head></head><body>".toList ++ renderScriptSrcTag coreStaticUrl ++
        "</body></html>".toList) []).1 (by decide) (by decide),
   (c9_placeholder_rules [] [] "<html><head>x</head><body>y</body></html>".toList
      "<html><head>x</head><body>y</body></html>".toList
      (renderScriptSrcTag coreStaticUrl) []
      "<html><head>x</head><body>y</body></html>".toList
      ("<html><head>x</head><body>y".toList ++ renderScriptSrcTag coreStaticUrl ++
        "</body></html>".toList)).2.1 (by decide) (by decide) (by decide),
   (c9_placeholder_rules [] [] "<p>plain</p>".toList "<p>plain</p>".toList
      (renderScriptSrcTag coreStaticUrl) [] "<p>plain</p>".toList []).2.2
      (by decide) (by decide) (by decide)⟩
